import Mathlib

/-!
Verification of the supply-chain-management web application's
application-layer logic, shallowly embedded in Lean 4.

Source files embedded here:
- `config.py` (`BusinessRules.CUSTOMER_TYPES`, `BusinessRules.ORDER_STATUS_FLOW`)
- `utils/helpers.py` (`get_customer_type_info`, `paginate_query`, `is_future_date`)
- `utils/decorators.py` (`role_required`, `_is_rate_limited`, `_get_from_cache`,
  `_set_cache`)
- `database/models.py` (`Order.create_from_cart`, `Order.get_by_id`,
  `Order.update_status`, `calculate_shipping_cost`, `CartItem.add_to_cart`)
- `routes/orders.py` (`bulk_update_orders`, `cancel_order`)
- `routes/customer.py` (`add_to_cart`, `checkout`)

Database reads and stored-routine results are modelled as explicit inputs
(the rows a query would return, an `Except` value for a routine call that
can raise), and the stored-procedure invocations a handler performs are
collected in a trace list, so every handler becomes a pure function from
its request data and database responses to its trace and outcome.
Python `Decimal` values are modelled as `ℚ`, dates as day numbers in `ℤ`,
and `time.time()` timestamps as integers (only their ordering and
differences matter to the embedded code).
-/

namespace SCM

/-- A stored-procedure invocation performed by the application layer. -/
inductive ProcCall where
  | updateOrderStatus (order_id : ℤ) (new_status : String) (user : Option String)
  | addToCart (customer_id item_id quantity : ℤ)
  | createOrderFromCart (customer_id route_id : ℤ) (delivery_date : ℤ)
      (special_instructions : String)
deriving DecidableEq, Repr

/-! ## `config.py`: BusinessRules -/

/-- One entry of `BusinessRules.CUSTOMER_TYPES` (config.py). -/
structure CustomerTypeData where
  discount_rate : ℚ
  min_order_qty : ℕ
  description : String
deriving DecidableEq, Repr

/-- `BusinessRules.CUSTOMER_TYPES` (config.py): customer types with their
discount rates, embedded as an association list keyed by the type name. -/
def CUSTOMER_TYPES : List (String × CustomerTypeData) :=
  [ ("end", ⟨0, 1, "End consumer"⟩),
    ("retail", ⟨5, 10, "Retail customer"⟩),
    ("wholesale", ⟨15, 50, "Wholesale customer"⟩) ]

/-- `BusinessRules.ORDER_STATUS_FLOW` (config.py): the static
order-status workflow graph, embedded as an association list. -/
def ORDER_STATUS_FLOW : List (String × List String) :=
  [ ("pending", ["confirmed", "cancelled"]),
    ("confirmed", ["assigned_train", "cancelled"]),
    ("assigned_train", ["in_transit_rail", "cancelled"]),
    ("in_transit_rail", ["at_warehouse", "cancelled"]),
    ("at_warehouse", ["assigned_truck", "cancelled"]),
    ("assigned_truck", ["out_for_delivery", "cancelled"]),
    ("out_for_delivery", ["delivered", "returned"]),
    ("delivered", []),
    ("cancelled", []),
    ("returned", []) ]

/-- Successors of a status in `ORDER_STATUS_FLOW` (dict lookup). -/
def statusFlowNext (s : String) : List String :=
  ((ORDER_STATUS_FLOW.find? (fun p => p.1 = s)).map (fun p => p.2)).getD []

/-! ## `utils/helpers.py`: get_customer_type_info -/

/-- The default entry `get_customer_type_info` supplies to `dict.get`. -/
def unknownCustomerType : CustomerTypeData :=
  ⟨0, 1, "Unknown"⟩

/-- `get_customer_type_info` (utils/helpers.py): look the customer type up
in `BusinessRules.CUSTOMER_TYPES`, falling back to the Unknown entry. -/
def get_customer_type_info (customer_type : String) : CustomerTypeData :=
  ((CUSTOMER_TYPES.find? (fun p => p.1 = customer_type)).map (fun p => p.2)).getD
    unknownCustomerType

/-! ## `utils/decorators.py`: role_required -/

/-- The parts of the Flask session the decorators consult: `session` may or
may not contain `user_name` and `user_role`. -/
structure Session where
  user_name : Option String
  user_role : Option String
deriving DecidableEq, Repr

/-- Result of a decorated route: either the wrapped view function's page, or
a redirect issued by the decorator without calling the view. -/
inductive RouteResult (α : Type) where
  | page (a : α)
  | redirectLogin
  | redirectIndex
deriving DecidableEq, Repr

/-- `role_required(*allowed_roles)` (utils/decorators.py): redirect to the
login page when the session has no `user_name`, redirect to the index page
when the session's `user_role` is not among the allowed roles, and invoke
the wrapped view `handler` otherwise. -/
def role_required (allowed_roles : List String) (s : Session) (handler : α) :
    RouteResult α :=
  match s.user_name with
  | none => .redirectLogin
  | some _ =>
    match s.user_role with
    | some r => if allowed_roles.contains r then .page handler else .redirectIndex
    | none => .redirectIndex

/-! ## `database/models.py`: Order model and shipping cost -/

/-- An order row fetched from `order_table`; only `order_id` is needed by
the claims about `Order.create_from_cart`. -/
structure OrderRow where
  order_id : ℤ
deriving DecidableEq, Repr

/-- One row of the result set returned by `sp_create_order_from_cart`:
`Order.create_from_cart` reads `result[0].get('order_id')`, which is
`none` when the column is absent or NULL. -/
structure CreateResultRow where
  order_id : Option ℤ
deriving DecidableEq, Repr

/-- `Order.get_by_id` (database/models.py): return the fetched row, or
None when the query raised (the `except` branch). -/
def Order.get_by_id (fetched : Except Unit (Option OrderRow)) : Option OrderRow :=
  match fetched with
  | .ok row => row
  | .error _ => none

/-- `Order.create_from_cart` (database/models.py): call
`sp_create_order_from_cart` (its result set is the input `proc`); when the
call raised, or returned no row, or the first row's `order_id` is falsy
(absent, NULL or 0), return None; otherwise fetch and return the order by
the returned `order_id`. -/
def Order.create_from_cart (proc : Except Unit (List CreateResultRow))
    (fetch : ℤ → Except Unit (Option OrderRow)) : Option OrderRow :=
  match proc with
  | .error _ => none
  | .ok rows =>
    match rows.head? with
    | none => none
    | some row =>
      match row.order_id with
      | none => none
      | some oid => if oid = 0 then none else Order.get_by_id (fetch oid)

/-- `Order.update_status` (database/models.py): unconditionally call
`sp_update_order_status(order_id, new_status, user_name)` (the emitted
trace), then return True and overwrite `self.status` with `new_status`
when the call succeeded, or return False leaving the status unchanged
when it raised. -/
def Order.update_status (order_id : ℤ) (status new_status : String)
    (user_name : Option String) (proc : Except Unit Unit) :
    List ProcCall × Bool × String :=
  ([.updateOrderStatus order_id new_status user_name],
    match proc with
    | .ok _ => (true, new_status)
    | .error _ => (false, status))

/-- `calculate_shipping_cost` (database/models.py): call
`fn_calculate_shipping_cost` (its scalar result is the input); return the
result as a Decimal when it is truthy, and Decimal('10.00') when the
result is None, zero, or the call raised. -/
def calculate_shipping_cost (fn_result : Except Unit (Option ℚ)) : ℚ :=
  match fn_result with
  | .ok (some r) => if r = 0 then 10 else r
  | .ok none => 10
  | .error _ => 10

/-! ## `routes/orders.py`: bulk_update_orders and cancel_order -/

/-- Outcome of the `bulk_update_orders` handler. -/
inductive BulkOutcome where
  | missingInput
  | noValidIds
  | updated (count : ℕ)
deriving DecidableEq, Repr

/-- Python's `str.isdigit`: nonempty and every character a digit. -/
def str_isdigit (s : String) : Bool :=
  !s.data.isEmpty && s.data.all Char.isDigit

/-- Python's `int(s)` on a digit string: decimal value of the digits. -/
def str_to_int (s : String) : ℤ :=
  (s.data.foldl (fun n c => 10 * n + (c.toNat - 48)) 0 : ℕ)

/-- The order-id parsing step of `bulk_update_orders` (routes/orders.py):
keep the submitted strings that are all digits (`oid.isdigit()`) and
convert them to integers. -/
def bulk_ids (order_ids_raw : List String) : List ℤ :=
  (order_ids_raw.filter str_isdigit).map str_to_int

/-- `bulk_update_orders` (routes/orders.py): reject when no order ids or
no status were submitted, or no id survives digit validation; otherwise
call `sp_update_order_status(order_id, new_status, user_name)` once per
selected id (each in its own try/except) and report how many calls
succeeded, per the success oracle `proc_ok`. -/
def bulk_update_orders (order_ids_raw : List String) (new_status : String)
    (user_name : String) (proc_ok : ℤ → Bool) : List ProcCall × BulkOutcome :=
  if order_ids_raw = [] ∨ new_status = "" then ([], .missingInput)
  else
    let ids := bulk_ids order_ids_raw
    if ids = [] then ([], .noValidIds)
    else (ids.map (fun oid => .updateOrderStatus oid new_status (some user_name)),
          .updated (ids.filter proc_ok).length)

/-- An order row as `cancel_order` reads it from `order_table`. -/
structure OrderTableRow where
  order_id : ℤ
  customer_id : ℤ
  status : String
deriving DecidableEq, Repr

/-- The session-derived user data `cancel_order` consults
(`get_current_user` in utils/helpers.py). -/
structure UserCtx where
  user_name : String
  user_role : Option String
  customer_id : Option ℤ
deriving DecidableEq, Repr

/-- `is_customer` (utils/helpers.py): the session role is 'customer'. -/
def is_customer (ctx : UserCtx) : Bool :=
  ctx.user_role == some "customer"

/-- The permission-scoped order lookup in `cancel_order`
(routes/orders.py): customers only see their own order row, managers see
any order row with the requested id. -/
def cancelLookup (db : List OrderTableRow) (ctx : UserCtx) (order_id : ℤ) :
    Option OrderTableRow :=
  if is_customer ctx then
    db.find? (fun o => o.order_id == order_id
      && (some o.customer_id : Option ℤ) == ctx.customer_id)
  else
    db.find? (fun o => o.order_id == order_id)

/-- Outcome of the `cancel_order` handler; every outcome redirects. -/
inductive CancelOutcome where
  | notFound
  | cannotCancel
  | cancelled
deriving DecidableEq, Repr

/-- Whether a `cancel_order` outcome flashes an error message
(routes/orders.py flashes an error on every path except success). -/
def cancelFlashesError : CancelOutcome → Bool
  | .notFound => true
  | .cannotCancel => true
  | .cancelled => false

/-- The statuses `cancel_order` treats as non-cancellable. -/
def terminalStatuses : List String := ["delivered", "cancelled", "returned"]

/-- `cancel_order` (routes/orders.py): look the order up under the
requesting user's permission scope; reject when it is not visible or its
status is 'delivered', 'cancelled' or 'returned'; otherwise call
`sp_update_order_status(order_id, 'cancelled', user_name)`. -/
def cancel_order (db : List OrderTableRow) (ctx : UserCtx) (order_id : ℤ) :
    List ProcCall × CancelOutcome :=
  match cancelLookup db ctx order_id with
  | none => ([], .notFound)
  | some o =>
    if o.status ∈ terminalStatuses then ([], .cannotCancel)
    else ([.updateOrderStatus order_id "cancelled" (some ctx.user_name)],
          .cancelled)

/-! ## `routes/customer.py`: add_to_cart -/

/-- An item row as `add_to_cart`'s existence query reads it. -/
structure ItemRow where
  item_id : ℤ
  is_active : Bool
  item_name : String
deriving DecidableEq, Repr

/-- An inventory row contributing to `SUM(quantity_available)`. -/
structure InventoryRow where
  item_id : ℤ
  quantity_available : ℤ
deriving DecidableEq, Repr

/-- The `SELECT SUM(quantity_available) FROM inventory WHERE item_id = %s`
query in `add_to_cart`: SQL SUM over the matching rows, NULL (`none`)
when no row matches. -/
def sumAvailable (inventory : List InventoryRow) (item_id : ℤ) : Option ℤ :=
  let rows := inventory.filter (fun r => r.item_id == item_id)
  if rows = [] then none
  else some ((rows.map (fun r => r.quantity_available)).sum)

/-- Outcome of the `add_to_cart` handler; every outcome redirects.
`parseError` is `int()` raising (caught by the handler's `except`),
`sumNone` is the `None < quantity` TypeError raised when the inventory
sum is NULL (also caught by the `except`); `added ok` means
`sp_add_to_cart` was called and `ok` tells whether it succeeded. -/
inductive AddToCartOutcome where
  | parseError
  | invalidInput
  | itemNotFound
  | insufficientStock
  | sumNone
  | added (ok : Bool)
deriving DecidableEq, Repr

/-- Whether an `add_to_cart` outcome flashes an error message
(routes/customer.py flashes an error on every path except a successful
add). -/
def addFlashesError : AddToCartOutcome → Bool
  | .added true => false
  | _ => true

/-- `add_to_cart` (routes/customer.py): parse `item_id` and `quantity`
from the form (`none` = `int()` raised), reject non-positive values,
reject when no active item with that id exists, reject when the summed
available inventory is below the requested quantity, and otherwise call
`sp_add_to_cart(customer_id, item_id, quantity)` via
`CartItem.add_to_cart`, whose success is the oracle `sp_ok`. -/
def add_to_cart (items : List ItemRow) (inventory : List InventoryRow)
    (sp_ok : Bool) (customer_id : ℤ)
    (item_id_form quantity_form : Option ℤ) :
    List ProcCall × AddToCartOutcome :=
  match item_id_form, quantity_form with
  | some item_id, some quantity =>
    if item_id ≤ 0 ∨ quantity ≤ 0 then ([], .invalidInput)
    else
      match items.find? (fun r => r.item_id == item_id && r.is_active) with
      | none => ([], .itemNotFound)
      | some _ =>
        match sumAvailable inventory item_id with
        | none => ([], .sumNone)
        | some total =>
          if total < quantity then ([], .insufficientStock)
          else ([.addToCart customer_id item_id quantity], .added sp_ok)
  | _, _ => ([], .parseError)

/-! ## `routes/customer.py`: checkout, with `is_future_date` from
`utils/helpers.py` -/

/-- `is_future_date` (utils/helpers.py) at a string input, with dates
modelled as day numbers: `none` means the string failed to parse (the
`except` branch returns False); otherwise the date must be at least
`days_ahead` days after today. -/
def is_future_date (today : ℤ) (date_obj : Option ℤ) (days_ahead : ℕ) : Bool :=
  match date_obj with
  | some d => decide (today + (days_ahead : ℤ) ≤ d)
  | none => false

/-- Outcome of the POST branch of the `checkout` handler. `parseError` is
`int()` raising on the submitted route id (caught by the handler's
`except`); `placed` carries the created order's id. -/
inductive CheckoutOutcome where
  | parseError
  | noRoute
  | badDate
  | emptyCart
  | createFailed
  | placed (order_id : ℤ)
deriving DecidableEq, Repr

/-- Whether a `checkout` outcome flashes an error message
(routes/customer.py flashes an error on every path except a placed
order). -/
def checkoutFlashesError : CheckoutOutcome → Bool
  | .placed _ => false
  | _ => true

/-- `checkout` POST branch (routes/customer.py): parse the submitted
route id (`none` = `int()` raised), reject a non-positive route id,
reject a delivery date that is empty, unparseable, or less than 7 days
ahead (`is_future_date(delivery_date, days_ahead=7)`), reject an empty
cart, and otherwise create the order from the cart through
`Order.create_from_cart`, i.e. `sp_create_order_from_cart`. -/
def checkout (today : ℤ) (customer_id : ℤ)
    (route_id_form : Option ℤ) (delivery_date_form : Option ℤ)
    (special_instructions : String) (cart_items : List ℤ)
    (proc : Except Unit (List CreateResultRow))
    (fetch : ℤ → Except Unit (Option OrderRow)) :
    List ProcCall × CheckoutOutcome :=
  match route_id_form with
  | none => ([], .parseError)
  | some route_id =>
    if route_id ≤ 0 then ([], .noRoute)
    else
      match delivery_date_form with
      | none => ([], .badDate)
      | some d =>
        if is_future_date today (some d) 7 = false then ([], .badDate)
        else if cart_items = [] then ([], .emptyCart)
        else
          ([.createOrderFromCart customer_id route_id d special_instructions],
            match Order.create_from_cart proc fetch with
            | some o => .placed o.order_id
            | none => .createFailed)

/-! ## `utils/helpers.py`: paginate_query -/

/-- The dictionary `paginate_query` returns. -/
structure PageData (α : Type) where
  items : List α
  total : ℕ
  page : ℤ
  per_page : ℕ
  pages : ℕ
  has_prev : Bool
  has_next : Bool
  prev_num : Option ℤ
  next_num : Option ℤ
deriving DecidableEq, Repr

/-- The page-clamping step of `paginate_query` (utils/helpers.py):
`if page < 1: page = 1 elif page > pages and pages > 0: page = pages`. -/
def clampPage (page : ℤ) (pages : ℕ) : ℤ :=
  if page < 1 then 1
  else if (pages : ℤ) < page ∧ 0 < pages then (pages : ℤ)
  else page

/-- `paginate_query` (utils/helpers.py): return the empty-page dictionary
for an empty result list; otherwise compute the page count by ceiling
division, clamp the requested page into range, and slice the result list
at `[(page-1)*per_page : (page-1)*per_page + per_page]`. -/
def paginate_query (query_result : List α) (page : ℤ) (per_page : ℕ) :
    PageData α :=
  if query_result.isEmpty then
    { items := [], total := 0, page := 1, per_page := per_page, pages := 0,
      has_prev := false, has_next := false, prev_num := none, next_num := none }
  else
    let total := query_result.length
    let pages := (total + per_page - 1) / per_page
    let page2 := clampPage page pages
    let start := ((page2 - 1) * (per_page : ℤ)).toNat
    let items := (query_result.drop start).take per_page
    { items := items, total := total, page := page2, per_page := per_page,
      pages := pages,
      has_prev := decide (1 < page2),
      has_next := decide (page2 < (pages : ℤ)),
      prev_num := if 1 < page2 then some (page2 - 1) else none,
      next_num := if page2 < (pages : ℤ) then some (page2 + 1) else none }

/-! ## `utils/decorators.py`: rate limiting -/

/-- The per-key timestamp cleanup inside `_is_rate_limited`
(utils/decorators.py): keep the recorded timestamps strictly inside the
window, i.e. those with `timestamp > window_start`. -/
def rlClean (timestamps : List ℤ) (window_start : ℤ) : List ℤ :=
  timestamps.filter (fun t => decide (window_start < t))

/-- One `_is_rate_limited` call on one key's recorded timestamp list:
clean the entries outside the window `now - per_seconds`, report the
request limited (True) when `max_requests` timestamps remain, and
otherwise record `now` and admit the request (False). -/
def rlStep (timestamps : List ℤ) (max_requests : ℕ) (per_seconds now : ℤ) :
    Bool × List ℤ :=
  let cleaned := rlClean timestamps (now - per_seconds)
  if max_requests ≤ cleaned.length then (true, cleaned)
  else (false, cleaned ++ [now])

/-- `_is_rate_limited` (utils/decorators.py) on the keyed in-process store
`g.rate_limit_store`, modelled as a total map from keys to recorded
timestamp lists (a missing key's list is empty, as the code's `else`
branch sets). -/
def is_rate_limited (store : String → List ℤ) (key : String)
    (max_requests : ℕ) (per_seconds now : ℤ) :
    Bool × (String → List ℤ) :=
  let r := rlStep (store key) max_requests per_seconds now
  (r.1, Function.update store key r.2)

/-- A sequence of `_is_rate_limited` calls for one key at the given call
times, returning the times of the admitted calls (those that returned
False). -/
def rlRunStore (store : String → List ℤ) (key : String)
    (max_requests : ℕ) (per_seconds : ℤ) : List ℤ → List ℤ
  | [] => []
  | t :: ts =>
    let r := is_rate_limited store key max_requests per_seconds t
    if r.1 then rlRunStore r.2 key max_requests per_seconds ts
    else t :: rlRunStore r.2 key max_requests per_seconds ts

/-- `rlRunStore` at the level of one key's timestamp list. -/
def rlRun (timestamps : List ℤ) (max_requests : ℕ) (per_seconds : ℤ) :
    List ℤ → List ℤ
  | [] => []
  | t :: ts =>
    let r := rlStep timestamps max_requests per_seconds t
    if r.1 then rlRun r.2 max_requests per_seconds ts
    else t :: rlRun r.2 max_requests per_seconds ts

/-- Proof device for the rate limiter: the same admission decisions
computed against the full, never-cleaned history of admitted times,
re-filtered from scratch at every call. -/
def rlRunFull (admitted : List ℤ) (max_requests : ℕ) (per_seconds : ℤ) :
    List ℤ → List ℤ
  | [] => []
  | t :: ts =>
    if max_requests ≤ (rlClean admitted (t - per_seconds)).length
    then rlRunFull admitted max_requests per_seconds ts
    else t :: rlRunFull (admitted ++ [t]) max_requests per_seconds ts

/-- Membership of a timestamp in the half-open window `(T, T + per]`. -/
def inWindow (T per : ℤ) (s : ℤ) : Bool :=
  decide (T < s) && decide (s ≤ T + per)

/-! ## `utils/decorators.py`: response cache -/

/-- One entry of the in-process cache store `g.cache_store`: the dict
`{'value': ..., 'expires': time.time() + timeout}` written by
`_set_cache`. -/
structure CacheEntry (α : Type) where
  value : α
  expires : ℤ
deriving DecidableEq, Repr

/-- `_get_from_cache` (utils/decorators.py) on the keyed store
`g.cache_store`: return the entry's value while the current time is
before its expiry, and delete the entry and return None once the expiry
is reached; a missing key returns None. Returns the value and the
resulting store. -/
def get_from_cache (store : String → Option (CacheEntry α)) (key : String)
    (now : ℤ) : Option α × (String → Option (CacheEntry α)) :=
  match store key with
  | some entry =>
    if now < entry.expires then (some entry.value, store)
    else (none, Function.update store key none)
  | none => (none, store)

/-- `_set_cache` (utils/decorators.py): store the value under the key
with expiry `time.time() + timeout`. -/
def set_cache (store : String → Option (CacheEntry α)) (key : String)
    (value : α) (timeout : ℤ) (now : ℤ) :
    String → Option (CacheEntry α) :=
  Function.update store key (some ⟨value, now + timeout⟩)

end SCM

namespace SCM

/-- C7: each of the three customer types has exactly the claimed entry in
`BusinessRules.CUSTOMER_TYPES`, `get_customer_type_info` returns exactly
that entry for those three types, and returns the Unknown default
(discount 0.00, min qty 1) for every other input string. -/
theorem customer_type_info_spec :
    (CUSTOMER_TYPES.find? (fun p => p.1 = "end")
      = some ("end", ⟨0, 1, "End consumer"⟩)
    ∧ CUSTOMER_TYPES.find? (fun p => p.1 = "retail")
      = some ("retail", ⟨5, 10, "Retail customer"⟩)
    ∧ CUSTOMER_TYPES.find? (fun p => p.1 = "wholesale")
      = some ("wholesale", ⟨15, 50, "Wholesale customer"⟩))
    ∧ (get_customer_type_info "end" = ⟨0, 1, "End consumer"⟩
    ∧ get_customer_type_info "retail" = ⟨5, 10, "Retail customer"⟩
    ∧ get_customer_type_info "wholesale" = ⟨15, 50, "Wholesale customer"⟩)
    ∧ ∀ s : String, s ∉ ["end", "retail", "wholesale"] →
        get_customer_type_info s = unknownCustomerType := by
  refine ⟨⟨by decide, by decide, by decide⟩, ⟨by decide, by decide, by decide⟩, ?_⟩
  intro s hs
  simp only [List.mem_cons, List.not_mem_nil, or_false, not_or] at hs
  obtain ⟨h1, h2, h3⟩ := hs
  simp [get_customer_type_info, CUSTOMER_TYPES, List.find?,
    h1, h2, h3, Ne.symm h1, Ne.symm h2, Ne.symm h3]

/-- Witness for C7: a concrete unknown customer type gets the default. -/
theorem customer_type_info_spec_witness :
    get_customer_type_info "corporate" = unknownCustomerType :=
  customer_type_info_spec.2.2 "corporate" (by decide)

/-- C3: a route wrapped by `role_required(allowed_roles)` invokes the
wrapped view exactly when the session contains `user_name` and the
session's `user_role` is one of the allowed roles; otherwise the view is
never called and the result is a redirect — to the login page when
`user_name` is absent, to the index page otherwise. -/
theorem role_required_spec (allowed_roles : List String) (s : Session)
    (handler : α) :
    (role_required allowed_roles s handler = .page handler ↔
      s.user_name ≠ none ∧ ∃ r, s.user_role = some r ∧ r ∈ allowed_roles)
    ∧ (s.user_name = none →
        role_required allowed_roles s handler = .redirectLogin)
    ∧ (s.user_name ≠ none → (∀ r, s.user_role = some r → r ∉ allowed_roles) →
        role_required allowed_roles s handler = .redirectIndex)
    ∧ (s.user_name ≠ none → s.user_role = none →
        role_required allowed_roles s handler = .redirectIndex) := by
  obtain ⟨un, ur⟩ := s
  refine ⟨?_, ?_, ?_, ?_⟩
  · constructor
    · intro h
      cases un with
      | none => simp [role_required] at h
      | some u =>
        cases ur with
        | none => simp [role_required] at h
        | some r =>
          simp only [role_required] at h
          by_cases hr : allowed_roles.contains r
          · exact ⟨by simp, r, rfl, List.elem_iff.mp hr⟩
          · rw [if_neg hr] at h
            exact absurd h (by simp)
    · rintro ⟨hname, r, hrole, hmem⟩
      cases un with
      | none => simp at hname
      | some u =>
        simp only at hrole
        subst hrole
        simp [role_required, hmem]
  · intro h
    simp only at h
    subst h
    rfl
  · intro hname hrole
    cases un with
    | none => simp at hname
    | some u =>
      cases ur with
      | none => rfl
      | some r =>
        have hmem := hrole r rfl
        simp [role_required, hmem]
  · intro hname hrole
    cases un with
    | none => simp at hname
    | some u =>
      simp only at hrole
      subst hrole
      rfl

/-- Witness for C3: with user "alice" logged in as a store manager, a
manager-only route runs its view; with no user in the session the same
route redirects to the login page. -/
theorem role_required_spec_witness :
    role_required ["store_manager", "main_manager"]
      ⟨some "alice", some "store_manager"⟩ (0 : ℕ) = .page 0
    ∧ role_required ["store_manager", "main_manager"]
      ⟨none, none⟩ (0 : ℕ) = .redirectLogin := by
  constructor
  · exact (role_required_spec ["store_manager", "main_manager"]
      ⟨some "alice", some "store_manager"⟩ (0 : ℕ)).1.mpr
      ⟨by decide, "store_manager", rfl, by decide⟩
  · exact (role_required_spec ["store_manager", "main_manager"]
      ⟨none, none⟩ (0 : ℕ)).2.1 rfl

/-- C1: every order-status update path passes its new status straight to
`sp_update_order_status` without consulting `BusinessRules.ORDER_STATUS_FLOW`:
`Order.update_status` issues the call for every new status, a validated
`bulk_update_orders` submission issues it for every selected id and every
submitted status, and `cancel_order` issues it with status 'cancelled' for
every visible non-terminal order — even though 'cancelled' is not a
successor of the non-terminal status 'out_for_delivery' in the flow
graph, which is consulted nowhere. -/
theorem status_flow_unenforced_spec :
    (∀ (order_id : ℤ) (status new_status : String) (user_name : Option String)
        (proc : Except Unit Unit),
      (Order.update_status order_id status new_status user_name proc).1
        = [ProcCall.updateOrderStatus order_id new_status user_name])
    ∧ (∀ (raw : List String) (new_status user_name : String) (proc_ok : ℤ → Bool),
        raw ≠ [] → new_status ≠ "" → ∀ oid ∈ bulk_ids raw,
          ProcCall.updateOrderStatus oid new_status (some user_name)
            ∈ (bulk_update_orders raw new_status user_name proc_ok).1)
    ∧ (∀ (db : List OrderTableRow) (ctx : UserCtx) (oid : ℤ) (o : OrderTableRow),
        cancelLookup db ctx oid = some o → o.status ∉ terminalStatuses →
        (cancel_order db ctx oid).1
          = [ProcCall.updateOrderStatus oid "cancelled" (some ctx.user_name)])
    ∧ ("cancelled" ∉ statusFlowNext "out_for_delivery"
        ∧ "out_for_delivery" ∉ terminalStatuses) := by
  refine ⟨fun _ _ _ _ _ => rfl, ?_, ?_, by decide, by decide⟩
  · intro raw new_status user_name proc_ok hraw hns oid hmem
    have hne : bulk_ids raw ≠ [] := by
      intro h
      rw [h] at hmem
      exact absurd hmem (List.not_mem_nil oid)
    simp only [bulk_update_orders]
    rw [if_neg (by exact not_or.mpr ⟨hraw, hns⟩), if_neg hne]
    exact List.mem_map_of_mem _ hmem
  · intro db ctx oid o hfind hstatus
    simp [cancel_order, hfind, hstatus]

/-- Witness for C1: a store manager's bulk update of order 7 to 'pending'
— a transition the flow graph forbids from every status — still issues
the stored-procedure call, and cancelling order 5 while it is
out for delivery issues the 'cancelled' call although the flow graph has
no such edge. -/
theorem status_flow_unenforced_spec_witness :
    ProcCall.updateOrderStatus 7 "pending" (some "bob")
      ∈ (bulk_update_orders ["7"] "pending" "bob" (fun _ => true)).1
    ∧ (cancel_order [⟨5, 1, "out_for_delivery"⟩]
        ⟨"bob", some "store_manager", none⟩ 5).1
      = [ProcCall.updateOrderStatus 5 "cancelled" (some "bob")] := by
  constructor
  · exact status_flow_unenforced_spec.2.1 ["7"] "pending" "bob" (fun _ => true)
      (by decide) (by decide) 7 (by decide)
  · exact status_flow_unenforced_spec.2.2.1 [⟨5, 1, "out_for_delivery"⟩]
      ⟨"bob", some "store_manager", none⟩ 5 ⟨5, 1, "out_for_delivery"⟩
      (by decide) (by decide)

/-- C2 counterexample: when `fn_calculate_shipping_cost` returns the
present value 0, `calculate_shipping_cost` does not return that result as
a Decimal — it returns the 10.00 fallback, although the result is neither
absent nor a failed call. -/
theorem delegated_logic_counterexample :
    calculate_shipping_cost (.ok (some 0)) = 10 ∧ (10 : ℚ) ≠ 0 :=
  ⟨rfl, by norm_num⟩

/-- C2 (amended): the three operations compute nothing themselves — each
returns a value fully determined by its database routine's result:
`Order.create_from_cart` returns the order fetched by the `order_id` the
procedure returned (when present and nonzero) and None otherwise,
`Order.update_status` returns True and the new status exactly when the
procedure call succeeded, and `calculate_shipping_cost` returns the
function result as a Decimal, or Decimal('10.00') when the result is
absent, zero, or the call fails. -/
theorem delegated_logic_spec :
    (∀ (proc : Except Unit (List CreateResultRow))
        (fetch : ℤ → Except Unit (Option OrderRow)),
      (∃ rows row oid, proc = .ok rows ∧ rows.head? = some row
        ∧ row.order_id = some oid ∧ oid ≠ 0
        ∧ Order.create_from_cart proc fetch = Order.get_by_id (fetch oid))
      ∨ Order.create_from_cart proc fetch = none)
    ∧ (∀ (order_id : ℤ) (status new_status : String) (user_name : Option String)
        (proc : Except Unit Unit),
        (Order.update_status order_id status new_status user_name proc).2
          = match proc with
            | .ok _ => (true, new_status)
            | .error _ => (false, status))
    ∧ (∀ r : ℚ, r ≠ 0 → calculate_shipping_cost (.ok (some r)) = r)
    ∧ calculate_shipping_cost (.ok none) = 10
    ∧ calculate_shipping_cost (.ok (some 0)) = 10
    ∧ (∀ e : Unit, calculate_shipping_cost (.error e) = 10) := by
  refine ⟨?_, fun _ _ _ _ _ => rfl, ?_, rfl, rfl, fun _ => rfl⟩
  · intro proc fetch
    match proc with
    | .error _ => exact Or.inr rfl
    | .ok rows =>
      match hrow : rows.head? with
      | none => exact Or.inr (by simp [Order.create_from_cart, hrow])
      | some row =>
        match hoid : row.order_id with
        | none => exact Or.inr (by simp [Order.create_from_cart, hrow, hoid])
        | some oid =>
          by_cases h0 : oid = 0
          · exact Or.inr (by simp [Order.create_from_cart, hrow, hoid, h0])
          · exact Or.inl ⟨rows, row, oid, rfl, hrow, hoid, h0,
              by simp [Order.create_from_cart, hrow, hoid, h0]⟩
  · intro r hr
    simp [calculate_shipping_cost, hr]

/-- Witness for C2: a successful creation returning order id 42 makes
`create_from_cart` return exactly the row fetched for id 42, and a
shipping-cost result of 25 is passed through. -/
theorem delegated_logic_spec_witness :
    calculate_shipping_cost (.ok (some 25)) = 25
    ∧ Order.create_from_cart (.ok [⟨some 42⟩])
        (fun oid => .ok (some ⟨oid⟩)) = some ⟨42⟩ := by
  constructor
  · exact delegated_logic_spec.2.2.1 25 (by norm_num)
  · have h := delegated_logic_spec.1 (.ok [⟨some 42⟩])
      (fun oid => .ok (some ⟨oid⟩))
    rcases h with ⟨rows, row, oid, hproc, hrow, hoid, h0, heq⟩ | h
    · cases hproc
      cases hrow
      cases hoid
      exact heq
    · exact absurd h (by decide)

/-- C8: `cancel_order` never calls `sp_update_order_status` for an order
whose current status is 'delivered', 'cancelled' or 'returned' — it
flashes an error and redirects — and the cancellation call is issued only
for an order the requesting user's permission scope can see whose status
is non-terminal. -/
theorem cancel_order_spec (db : List OrderTableRow) (ctx : UserCtx) (oid : ℤ) :
    (∀ o, cancelLookup db ctx oid = some o → o.status ∈ terminalStatuses →
      (cancel_order db ctx oid).1 = []
        ∧ cancelFlashesError (cancel_order db ctx oid).2 = true)
    ∧ ((cancel_order db ctx oid).1 ≠ [] →
      ∃ o, cancelLookup db ctx oid = some o ∧ o.status ∉ terminalStatuses
        ∧ cancel_order db ctx oid
          = ([ProcCall.updateOrderStatus oid "cancelled" (some ctx.user_name)],
             .cancelled)) := by
  constructor
  · intro o hfind hterm
    constructor <;> simp [cancel_order, hfind, hterm, cancelFlashesError]
  · intro hne
    match hfind : cancelLookup db ctx oid with
    | none => exact absurd (by simp [cancel_order, hfind]) hne
    | some o =>
      by_cases hc : o.status ∈ terminalStatuses
      · exact absurd (by simp [cancel_order, hfind, hc]) hne
      · refine ⟨o, rfl, hc, ?_⟩
        simp only [cancel_order, hfind]
        rw [if_neg hc]

/-- Witness for C8: a customer's attempt to cancel their already
delivered order 9 issues no procedure call and flashes an error. -/
theorem cancel_order_spec_witness :
    (cancel_order [⟨9, 3, "delivered"⟩] ⟨"carol", some "customer", some 3⟩ 9).1 = []
    ∧ cancelFlashesError
        (cancel_order [⟨9, 3, "delivered"⟩] ⟨"carol", some "customer", some 3⟩ 9).2
      = true :=
  (cancel_order_spec [⟨9, 3, "delivered"⟩] ⟨"carol", some "customer", some 3⟩ 9).1
    ⟨9, 3, "delivered"⟩ (by decide) (by decide)

/-- C6: the `add_to_cart` handler calls `sp_add_to_cart` exactly when the
parsed item id and quantity are both positive, an active item with that
id exists, and the summed available inventory for the item covers the
requested quantity; on any validation failure no procedure call is made
and the handler flashes an error and redirects. -/
theorem add_to_cart_spec (items : List ItemRow) (inventory : List InventoryRow)
    (sp_ok : Bool) (customer_id : ℤ) (item_id_form quantity_form : Option ℤ) :
    ((add_to_cart items inventory sp_ok customer_id
        item_id_form quantity_form).1 ≠ [] ↔
      ∃ item_id quantity,
        item_id_form = some item_id ∧ quantity_form = some quantity
        ∧ 0 < item_id ∧ 0 < quantity
        ∧ (∃ row ∈ items, row.item_id = item_id ∧ row.is_active = true)
        ∧ (∃ total, sumAvailable inventory item_id = some total
            ∧ quantity ≤ total)
        ∧ (add_to_cart items inventory sp_ok customer_id
            item_id_form quantity_form).1
          = [ProcCall.addToCart customer_id item_id quantity])
    ∧ ((add_to_cart items inventory sp_ok customer_id
          item_id_form quantity_form).1 = [] →
        addFlashesError (add_to_cart items inventory sp_ok customer_id
          item_id_form quantity_form).2 = true) := by
  match item_id_form, quantity_form with
  | none, none | none, some _ | some _, none =>
    refine ⟨⟨fun h => absurd rfl h, ?_⟩, fun _ => rfl⟩
    rintro ⟨i, q, hi, hq, -⟩
    simp at hi hq
  | some item_id, some quantity =>
    by_cases h1 : item_id ≤ 0 ∨ quantity ≤ 0
    · refine ⟨⟨fun h => absurd (by simp [add_to_cart, h1]) h, ?_⟩, fun _ => ?_⟩
      · rintro ⟨i, q, hi, hq, hpi, hpq, -⟩
        cases hi
        cases hq
        rcases h1 with h | h
        · exact absurd hpi (not_lt.mpr h)
        · exact absurd hpq (not_lt.mpr h)
      · simp [add_to_cart, h1, addFlashesError]
    · push_neg at h1
      obtain ⟨hpi, hpq⟩ := h1
      have h1 : ¬(item_id ≤ 0 ∨ quantity ≤ 0) := by
        push_neg
        exact ⟨hpi, hpq⟩
      match hfind : items.find? (fun r => r.item_id == item_id && r.is_active) with
      | none =>
        refine ⟨⟨fun h => absurd (by simp [add_to_cart, h1, hfind]) h, ?_⟩,
          fun _ => by simp [add_to_cart, h1, hfind, addFlashesError]⟩
        rintro ⟨i, q, hi, hq, -, -, ⟨row, hrow, hid, hact⟩, -⟩
        cases hi
        cases hq
        have := List.find?_eq_none.mp hfind row hrow
        simp [hid, hact] at this
      | some row0 =>
        match hsum : sumAvailable inventory item_id with
        | none =>
          refine ⟨⟨fun h => absurd (by simp [add_to_cart, h1, hfind, hsum]) h, ?_⟩,
            fun _ => by simp [add_to_cart, h1, hfind, hsum, addFlashesError]⟩
          rintro ⟨i, q, hi, hq, -, -, -, ⟨total, htot, -⟩, -⟩
          cases hi
          cases hq
          rw [hsum] at htot
          exact absurd htot (by simp)
        | some total =>
          by_cases hlt : total < quantity
          · refine ⟨⟨fun h =>
              absurd (by simp [add_to_cart, h1, hfind, hsum, hlt]) h, ?_⟩,
              fun _ => by simp [add_to_cart, h1, hfind, hsum, hlt, addFlashesError]⟩
            rintro ⟨i, q, hi, hq, -, -, -, ⟨total2, htot, hle⟩, -⟩
            cases hi
            cases hq
            rw [hsum] at htot
            cases htot
            exact absurd hle (not_le.mpr hlt)
          · have hcall : (add_to_cart items inventory sp_ok customer_id
                (some item_id) (some quantity)).1
                = [ProcCall.addToCart customer_id item_id quantity] := by
              simp [add_to_cart, h1, hfind, hsum, hlt]
            refine ⟨⟨fun _ => ?_, fun _ => by simp [hcall]⟩, fun h => ?_⟩
            · have hpred := List.find?_some hfind
              have hmem := List.mem_of_find?_eq_some hfind
              simp only [Bool.and_eq_true, beq_iff_eq] at hpred
              exact ⟨item_id, quantity, rfl, rfl, hpi, hpq,
                ⟨row0, hmem, hpred.1, hpred.2⟩,
                ⟨total, hsum, not_lt.mp hlt⟩, hcall⟩
            · rw [hcall] at h
              exact absurd h (by simp)

/-- Witness for C6: a valid request for 2 units of active item 3 with 5
units available issues exactly the `sp_add_to_cart` call, and the same
request for 9 units issues none. -/
theorem add_to_cart_spec_witness :
    (add_to_cart [⟨3, true, "Rice"⟩] [⟨3, 5⟩] true 1 (some 3) (some 2)).1
      = [ProcCall.addToCart 1 3 2]
    ∧ addFlashesError
        (add_to_cart [⟨3, true, "Rice"⟩] [⟨3, 5⟩] true 1 (some 3) (some 9)).2
      = true := by
  constructor
  · decide
  · exact (add_to_cart_spec [⟨3, true, "Rice"⟩] [⟨3, 5⟩] true 1
      (some 3) (some 9)).2 (by decide)

/-- C10: the `checkout` handler invokes `sp_create_order_from_cart`
exactly when the submitted route id parses to a positive integer, the
submitted delivery date parses and is at least 7 days after today
(`is_future_date` with `days_ahead=7`), and the cart is non-empty; when
any precondition fails the handler flashes an error and no order-creation
call is made. -/
theorem checkout_spec (today customer_id : ℤ)
    (route_id_form delivery_date_form : Option ℤ)
    (special_instructions : String) (cart_items : List ℤ)
    (proc : Except Unit (List CreateResultRow))
    (fetch : ℤ → Except Unit (Option OrderRow)) :
    ((checkout today customer_id route_id_form delivery_date_form
        special_instructions cart_items proc fetch).1 ≠ [] ↔
      (∃ route_id d, route_id_form = some route_id ∧ 0 < route_id
        ∧ delivery_date_form = some d
        ∧ is_future_date today delivery_date_form 7 = true
        ∧ cart_items ≠ []
        ∧ (checkout today customer_id route_id_form delivery_date_form
            special_instructions cart_items proc fetch).1
          = [ProcCall.createOrderFromCart customer_id route_id d
              special_instructions]))
    ∧ ((checkout today customer_id route_id_form delivery_date_form
          special_instructions cart_items proc fetch).1 = [] →
        checkoutFlashesError (checkout today customer_id route_id_form
          delivery_date_form special_instructions cart_items proc fetch).2
        = true) := by
  match route_id_form with
  | none =>
    refine ⟨⟨fun h => absurd rfl h, ?_⟩, fun _ => rfl⟩
    rintro ⟨r, d, hr, -⟩
    simp at hr
  | some route_id =>
    by_cases hrid : route_id ≤ 0
    · refine ⟨⟨fun h => absurd (by simp [checkout, hrid]) h, ?_⟩,
        fun _ => by simp [checkout, hrid, checkoutFlashesError]⟩
      rintro ⟨r, d, hr, hpos, -⟩
      cases hr
      exact absurd hpos (not_lt.mpr hrid)
    · match delivery_date_form with
      | none =>
        refine ⟨⟨fun h => absurd (by simp [checkout, hrid]) h, ?_⟩,
          fun _ => by simp [checkout, hrid, checkoutFlashesError]⟩
        rintro ⟨r, d, -, -, hd, -⟩
        simp at hd
      | some d =>
        by_cases hfut : is_future_date today (some d) 7 = false
        · refine ⟨⟨fun h => absurd (by simp [checkout, hrid, hfut]) h, ?_⟩,
            fun _ => by simp [checkout, hrid, hfut, checkoutFlashesError]⟩
          rintro ⟨r, d2, -, -, hd, hfd, -⟩
          cases hd
          rw [hfd] at hfut
          exact absurd hfut (by simp)
        · have hfut2 : is_future_date today (some d) 7 = true := by
            simpa using hfut
          by_cases hcart : cart_items = []
          · refine ⟨⟨fun h =>
              absurd (by simp [checkout, hrid, hfut2, hcart]) h, ?_⟩,
              fun _ => by simp [checkout, hrid, hfut2, hcart, checkoutFlashesError]⟩
            rintro ⟨r, d2, -, -, -, -, hne, -⟩
            exact absurd hcart hne
          · have hcall : (checkout today customer_id (some route_id) (some d)
                special_instructions cart_items proc fetch).1
                = [ProcCall.createOrderFromCart customer_id route_id d
                    special_instructions] := by
              simp [checkout, hrid, hfut2, hcart]
            refine ⟨⟨fun _ => ⟨route_id, d, rfl, not_le.mp hrid, rfl, hfut2,
              hcart, hcall⟩, fun _ => by simp [hcall]⟩, fun h => ?_⟩
            rw [hcall] at h
            exact absurd h (by simp)

/-- Witness for C10: a checkout on day 100 with route 2, delivery day 110
and one cart item issues exactly the order-creation call, while the same
checkout with delivery day 105 (less than 7 days ahead) issues none and
flashes an error. -/
theorem checkout_spec_witness :
    (checkout 100 1 (some 2) (some 110) "" [4] (.ok [⟨some 8⟩])
        (fun oid => .ok (some ⟨oid⟩))).1
      = [ProcCall.createOrderFromCart 1 2 110 ""]
    ∧ checkoutFlashesError
        (checkout 100 1 (some 2) (some 105) "" [4] (.ok [⟨some 8⟩])
          (fun oid => .ok (some ⟨oid⟩))).2 = true := by
  constructor
  · decide
  · exact (checkout_spec 100 1 (some 2) (some 105) "" [4] (.ok [⟨some 8⟩])
      (fun oid => .ok (some ⟨oid⟩))).2 (by decide)

/-- Ceiling division covers everything: `n ≤ ((n + p - 1) / p) * p`. -/
theorem le_ceil_div_mul (n p : ℕ) (hp : 0 < p) : n ≤ ((n + p - 1) / p) * p := by
  by_contra hlt
  push_neg at hlt
  have h1 : ((n + p - 1) / p + 1) * p ≤ n + p - 1 := by
    rw [add_mul, one_mul]
    generalize hq : (n + p - 1) / p * p = a at hlt ⊢
    omega
  have h2 : (n + p - 1) / p + 1 ≤ (n + p - 1) / p :=
    (Nat.le_div_iff_mul_le hp).mpr h1
  omega

/-- Consecutive `per`-sized chunks of a list concatenate to its prefix. -/
theorem flatten_chunks (l : List α) (per : ℕ) (k : ℕ) :
    ((List.range k).map (fun i => (l.drop (i * per)).take per)).flatten
      = l.take (k * per) := by
  induction k with
  | zero => simp
  | succ k ih =>
    rw [List.range_succ, List.map_append, List.flatten_append, ih]
    simp only [List.map_cons, List.map_nil, List.flatten_cons,
      List.flatten_nil, List.append_nil]
    rw [Nat.succ_mul, List.take_add]

/-- Characterization of the page clamp: the result is at least 1, at most
`pages` when there are pages, and the identity on in-range pages. -/
theorem clampPage_spec (page : ℤ) (pages : ℕ) :
    1 ≤ clampPage page pages
    ∧ (0 < pages → clampPage page pages ≤ (pages : ℤ))
    ∧ (1 ≤ page → page ≤ (pages : ℤ) → clampPage page pages = page) := by
  unfold clampPage
  split_ifs with h1 h2
  · exact ⟨le_refl 1, fun hp => by omega, fun hp1 hp2 => by omega⟩
  · obtain ⟨h2a, h2b⟩ := h2
    exact ⟨by omega, fun hp => le_refl _, fun hp1 hp2 => by omega⟩
  · rcases not_and_or.mp h2 with h2a | h2b
    · exact ⟨by omega, fun hp => by omega, fun hp1 hp2 => rfl⟩
    · exact ⟨by omega, fun hp => absurd hp h2b, fun hp1 hp2 => rfl⟩

/-- Unfolding equation of `paginate_query` on a nonempty list. -/
theorem paginate_query_eq_of_ne_nil (l : List α) (hl : l ≠ [])
    (page : ℤ) (per_page : ℕ) :
    paginate_query l page per_page =
      { items := (l.drop ((clampPage page ((l.length + per_page - 1) / per_page)
            - 1) * (per_page : ℤ)).toNat).take per_page,
        total := l.length,
        page := clampPage page ((l.length + per_page - 1) / per_page),
        per_page := per_page,
        pages := (l.length + per_page - 1) / per_page,
        has_prev := decide
          (1 < clampPage page ((l.length + per_page - 1) / per_page)),
        has_next := decide
          (clampPage page ((l.length + per_page - 1) / per_page)
            < (((l.length + per_page - 1) / per_page : ℕ) : ℤ)),
        prev_num := if 1 < clampPage page ((l.length + per_page - 1) / per_page)
          then some (clampPage page ((l.length + per_page - 1) / per_page) - 1)
          else none,
        next_num := if clampPage page ((l.length + per_page - 1) / per_page)
            < (((l.length + per_page - 1) / per_page : ℕ) : ℤ)
          then some (clampPage page ((l.length + per_page - 1) / per_page) + 1)
          else none } := by
  have hempty : l.isEmpty = false := by
    simpa [List.isEmpty_iff] using hl
  simp only [paginate_query, hempty, Bool.false_eq_true, if_false]

/-- Rewriting `((c - 1) * per).toNat` as `(c - 1).toNat * per` for a
clamped page `c ≥ 1`. -/
theorem toNat_mul_of_one_le (c : ℤ) (per : ℕ) (hc : 1 ≤ c) :
    ((c - 1) * (per : ℤ)).toNat = (c - 1).toNat * per := by
  obtain ⟨n, hn⟩ := Int.eq_ofNat_of_zero_le (by omega : (0 : ℤ) ≤ c - 1)
  rw [hn]
  have h2 : ((n : ℤ) * (per : ℤ)) = ((n * per : ℕ) : ℤ) := by
    push_cast
    ring
  rw [h2, Int.toNat_natCast, Int.toNat_natCast]

/-- The items of an in-range page are the corresponding chunk of the
input list. -/
theorem paginate_query_items_eq (l : List α) (per : ℕ) (i : ℕ)
    (hl : l ≠ []) (hi : i < (l.length + per - 1) / per) :
    (paginate_query l ((i : ℤ) + 1) per).items = (l.drop (i * per)).take per := by
  have hcp : clampPage ((i : ℤ) + 1) ((l.length + per - 1) / per) = (i : ℤ) + 1 :=
    (clampPage_spec _ _).2.2 (by omega) (by omega)
  have hstart : (((i : ℤ) + 1 - 1) * (per : ℤ)).toNat = i * per := by
    have h1 : ((i : ℤ) + 1 - 1) * (per : ℤ) = ((i * per : ℕ) : ℤ) := by
      push_cast
      ring
    rw [h1]
    omega
  simp only [paginate_query_eq_of_ne_nil l hl, hcp, hstart]

/-- The items of pages `1..pages` concatenate back to the input list. -/
theorem paginate_query_flatten (l : List α) (per_page : ℕ) (hper : 0 < per_page) :
    ((List.range ((l.length + per_page - 1) / per_page)).map
      (fun (i : ℕ) => (paginate_query l ((i : ℤ) + 1) per_page).items)).flatten = l := by
  by_cases hl : l = []
  · subst hl
    simp [Nat.div_eq_of_lt (by omega : per_page - 1 < per_page)]
  · rw [List.map_congr_left (fun i hi =>
      paginate_query_items_eq l per_page i hl (List.mem_range.mp hi))]
    rw [flatten_chunks]
    exact List.take_of_length_le (le_ceil_div_mul _ _ hper)

/-- C9: `paginate_query` reports the input length as `total`, the ceiling
of `total / per_page` as `pages`, clamps the requested page into
`1..pages` (1 for an empty list, identity when already in range), returns
as `items` the `per_page`-sized slice starting at
`(page-1)*per_page` (hence at most `per_page` items), sets `has_prev`
and `has_next` exactly for pages after the first and before the last, and
the items of pages `1..pages` concatenate back to the input list. -/
theorem paginate_query_spec (l : List α) (page : ℤ) (per_page : ℕ)
    (hper : 0 < per_page) :
    (paginate_query l page per_page).total = l.length
    ∧ (paginate_query l page per_page).pages
      = (l.length + per_page - 1) / per_page
    ∧ (paginate_query l page per_page).items
      = (l.drop (((paginate_query l page per_page).page - 1).toNat * per_page)).take
          per_page
    ∧ (paginate_query l page per_page).items.length ≤ per_page
    ∧ (l = [] → (paginate_query l page per_page).page = 1)
    ∧ (l ≠ [] → 1 ≤ (paginate_query l page per_page).page
        ∧ (paginate_query l page per_page).page
          ≤ ((paginate_query l page per_page).pages : ℤ))
    ∧ (1 ≤ page → page ≤ ((paginate_query l page per_page).pages : ℤ) →
        (paginate_query l page per_page).page = page)
    ∧ ((paginate_query l page per_page).has_prev = true
        ↔ 1 < (paginate_query l page per_page).page)
    ∧ ((paginate_query l page per_page).has_next = true
        ↔ (paginate_query l page per_page).page
          < ((paginate_query l page per_page).pages : ℤ))
    ∧ ((List.range (paginate_query l page per_page).pages).map
        (fun (i : ℕ) => (paginate_query l ((i : ℤ) + 1) per_page).items)).flatten
      = l := by
  by_cases hl : l = []
  · subst hl
    have heq : paginate_query ([] : List α) page per_page =
        { items := [], total := 0, page := 1, per_page := per_page, pages := 0,
          has_prev := false, has_next := false,
          prev_num := none, next_num := none } := rfl
    refine ⟨by simp [heq],
      by simp [heq, Nat.div_eq_of_lt (show per_page - 1 < per_page by omega)],
      by simp [heq], by simp [heq],
      fun _ => by simp [heq], fun h => absurd rfl h, ?_, by simp [heq],
      by simp [heq], by simp [heq]⟩
    intro h1 h2
    simp only [heq] at h2 ⊢
    omega
  · have heq := paginate_query_eq_of_ne_nil l hl page per_page
    have hpages_pos : 0 < (l.length + per_page - 1) / per_page := by
      have hlen : 0 < l.length := List.length_pos.mpr hl
      have h1 : 1 * per_page ≤ l.length + per_page - 1 := by omega
      exact (Nat.le_div_iff_mul_le hper).mpr h1
    obtain ⟨hc1, hc2, hc3⟩ :=
      clampPage_spec page ((l.length + per_page - 1) / per_page)
    refine ⟨by simp [heq], by simp [heq], ?_, by simp [heq],
      fun h => absurd h hl, fun _ => by simp [heq]; exact ⟨hc1, hc2 hpages_pos⟩,
      ?_, by simp [heq], by simp [heq], ?_⟩
    · simp only [heq]
      rw [toNat_mul_of_one_le _ _ hc1]
    · intro h1 h2
      simp only [heq] at h2 ⊢
      exact hc3 h1 h2
    · have hpg : (paginate_query l page per_page).pages
          = (l.length + per_page - 1) / per_page := by
        simp [heq]
      rw [hpg]
      exact paginate_query_flatten l per_page hper

/-- Cleaning against a later window start subsumes an earlier cleanup. -/
theorem rlClean_rlClean (l : List ℤ) (a b : ℤ) (hab : a ≤ b) :
    rlClean (rlClean l a) b = rlClean l b := by
  unfold rlClean
  rw [List.filter_filter]
  apply List.filter_congr
  intro x hx
  by_cases h : b < x
  · simp [h, lt_of_le_of_lt hab h]
  · simp [h]

/-- A fresh timestamp inside the window survives the cleanup. -/
theorem rlClean_append (l : List ℤ) (w t : ℤ) (h : w < t) :
    rlClean (l ++ [t]) w = rlClean l w ++ [t] := by
  unfold rlClean
  rw [List.filter_append]
  simp [h]

/-- The iterated rate limiter equals its full-history reference version:
cleaning only discards timestamps that can never be counted again once
call times are non-decreasing. -/
theorem rlRun_eq_full (m : ℕ) (per : ℤ) (hper : 0 < per) :
    ∀ (ts : List ℤ) (admitted : List ℤ) (t0 : ℤ),
      (∀ t ∈ ts, t0 ≤ t) → ts.Sorted (· ≤ ·) →
      rlRun (rlClean admitted (t0 - per)) m per ts
        = rlRunFull admitted m per ts := by
  intro ts
  induction ts with
  | nil => intro admitted t0 _ _; rfl
  | cons t ts ih =>
    intro admitted t0 hbound hsorted
    have ht0 : t0 ≤ t := hbound t (List.mem_cons_self t ts)
    have hclean : rlClean (rlClean admitted (t0 - per)) (t - per)
        = rlClean admitted (t - per) :=
      rlClean_rlClean _ _ _ (by omega)
    have hbound2 : ∀ x ∈ ts, t ≤ x := (List.sorted_cons.mp hsorted).1
    have hsorted2 : ts.Sorted (· ≤ ·) := (List.sorted_cons.mp hsorted).2
    simp only [rlRun, rlRunFull, rlStep, hclean]
    by_cases hc : m ≤ (rlClean admitted (t - per)).length
    · simp only [hc, if_true]
      exact ih admitted t hbound2 hsorted2
    · simp only [hc, if_false]
      have hstep : rlClean admitted (t - per) ++ [t]
          = rlClean (admitted ++ [t]) (t - per) :=
        (rlClean_append admitted (t - per) t (by omega)).symm
      rw [hstep]
      exact congrArg (t :: ·) (ih (admitted ++ [t]) t hbound2 hsorted2)

/-- The full-history rate limiter admits at most `max_requests` calls in
any half-open window `(T, T + per]`, given the already-admitted history
respects the bound for that window. -/
theorem rlRunFull_window_bound (m : ℕ) (per T : ℤ) :
    ∀ (ts admitted : List ℤ),
      admitted.countP (inWindow T per) ≤ m →
      admitted.countP (inWindow T per)
        + (rlRunFull admitted m per ts).countP (inWindow T per) ≤ m := by
  intro ts
  induction ts with
  | nil =>
    intro admitted hacc
    simpa [rlRunFull] using hacc
  | cons t ts ih =>
    intro admitted hacc
    by_cases hc : m ≤ (rlClean admitted (t - per)).length
    · simp only [rlRunFull, hc, if_true]
      exact ih admitted hacc
    · simp only [rlRunFull, hc, if_false]
      by_cases hw : inWindow T per t = true
      · have hwt : T < t ∧ t ≤ T + per := by
          simpa [inWindow] using hw
        have hsub : admitted.countP (inWindow T per)
            ≤ (rlClean admitted (t - per)).length := by
          rw [rlClean, ← List.countP_eq_length_filter]
          apply List.countP_mono_left
          intro s _ hs
          have hs2 : T < s ∧ s ≤ T + per := by
            simpa [inWindow] using hs
          simp only [decide_eq_true_eq]
          omega
        have hlt : admitted.countP (inWindow T per) < m :=
          lt_of_le_of_lt hsub (not_le.mp hc)
        have hacc2 : (admitted ++ [t]).countP (inWindow T per) ≤ m := by
          rw [List.countP_append]
          simp [List.countP_cons, hw]
          omega
        have hrec := ih (admitted ++ [t]) hacc2
        rw [List.countP_append] at hrec
        simp only [List.countP_cons, List.countP_nil, hw, if_true] at hrec ⊢
        omega
      · have hwf : inWindow T per t = false := by
          simpa using hw
        have hacc2 : (admitted ++ [t]).countP (inWindow T per) ≤ m := by
          rw [List.countP_append]
          simp [List.countP_cons, hwf]
          omega
        have hrec := ih (admitted ++ [t]) hacc2
        rw [List.countP_append] at hrec
        simp only [List.countP_cons, List.countP_nil, hwf, if_false] at hrec ⊢
        omega

/-- The keyed-store run of the rate limiter reduces to the run on the
key's own timestamp list. -/
theorem rlRunStore_eq (key : String) (m : ℕ) (per : ℤ) :
    ∀ (ts : List ℤ) (store : String → List ℤ),
      rlRunStore store key m per ts = rlRun (store key) m per ts := by
  intro ts
  induction ts with
  | nil => intro store; rfl
  | cons t ts ih =>
    intro store
    simp only [rlRunStore, rlRun, is_rate_limited]
    by_cases hb : (rlStep (store key) m per t).1
    · simp only [hb, if_true]
      rw [ih, Function.update_same]
    · simp only [hb, if_false]
      rw [ih, Function.update_same]

/-- C4: a `_is_rate_limited` call on the in-process store returns False
exactly when fewer than `max_requests` recorded timestamps for the key
lie within the last `per_seconds`; a False call appends its timestamp, a
True call records nothing (the key keeps a sublist of its old
timestamps), other keys are untouched — and consequently, for
non-decreasing call times starting from the empty store, any half-open
time window of length `per_seconds` contains at most `max_requests`
admitted (False) calls for the key. -/
theorem rate_limit_spec :
    (∀ (store : String → List ℤ) (key : String) (max_requests : ℕ)
        (per_seconds now : ℤ),
      ((is_rate_limited store key max_requests per_seconds now).1 = false
        ↔ (rlClean (store key) (now - per_seconds)).length < max_requests)
      ∧ ((is_rate_limited store key max_requests per_seconds now).1 = false →
          (is_rate_limited store key max_requests per_seconds now).2 key
            = rlClean (store key) (now - per_seconds) ++ [now])
      ∧ ((is_rate_limited store key max_requests per_seconds now).1 = true →
          (is_rate_limited store key max_requests per_seconds now).2 key
            = rlClean (store key) (now - per_seconds)
          ∧ ((is_rate_limited store key max_requests per_seconds now).2
              key).Sublist (store key))
      ∧ (∀ k2, k2 ≠ key →
          (is_rate_limited store key max_requests per_seconds now).2 k2
            = store k2))
    ∧ (∀ (max_requests : ℕ) (per_seconds : ℤ), 0 < per_seconds →
        ∀ ts : List ℤ, ts.Sorted (· ≤ ·) →
        ∀ (key : String) (T : ℤ),
          (rlRunStore (fun _ => []) key max_requests per_seconds ts).countP
            (inWindow T per_seconds) ≤ max_requests) := by
  constructor
  · intro store key m per now
    refine ⟨?_, ?_, ?_, ?_⟩
    · simp only [is_rate_limited, rlStep]
      by_cases hc : m ≤ (rlClean (store key) (now - per)).length
      · simp [hc]
      · simp [hc, not_le.mp hc]
    · intro hfalse
      simp only [is_rate_limited, rlStep] at hfalse ⊢
      by_cases hc : m ≤ (rlClean (store key) (now - per)).length
      · simp [hc] at hfalse
      · simp [hc, Function.update_same]
    · intro htrue
      simp only [is_rate_limited, rlStep] at htrue ⊢
      by_cases hc : m ≤ (rlClean (store key) (now - per)).length
      · constructor
        · simp [hc, Function.update_same]
        · simp only [hc, if_true, Function.update_same]
          exact List.filter_sublist _
      · simp [hc] at htrue
    · intro k2 hk2
      simp only [is_rate_limited]
      exact Function.update_noteq hk2 _ _
  · intro m per hper ts hsorted key T
    rw [rlRunStore_eq]
    match ts with
    | [] => simp [rlRun]
    | t :: ts =>
      have h1 : rlRun ((fun _ => ([] : List ℤ)) key) m per (t :: ts)
          = rlRunFull [] m per (t :: ts) := by
        have h0 : (fun _ => ([] : List ℤ)) key
            = rlClean [] (t - per) := rfl
        rw [h0]
        exact rlRun_eq_full m per hper (t :: ts) [] t
          (fun x hx => by
            rcases List.mem_cons.mp hx with h | h
            · omega
            · exact (List.sorted_cons.mp hsorted).1 x h)
          hsorted
      rw [h1]
      have := rlRunFull_window_bound m per T (t :: ts) [] (by simp)
      simpa using this

/-- Witness for C4: with limit 1 per 10 time units, calls at times 0, 5
and 20 admit the first (store empty), refuse the second (one timestamp
within the window), and admit the third (the old timestamp is cleaned);
every window `(T, T+10]` holds at most one admitted call. -/
theorem rate_limit_spec_witness :
    (is_rate_limited (fun _ => []) "user:alice" 1 10 0).1 = false
    ∧ (rlRunStore (fun _ => []) "user:alice" 1 10 [0, 5, 20]).countP
        (inWindow (-5) 10) ≤ 1 := by
  constructor
  · exact ((rate_limit_spec.1 (fun _ => []) "user:alice" 1 10 0).1).mpr
      (by decide)
  · exact rate_limit_spec.2 1 10 (by decide) [0, 5, 20] (by decide)
      "user:alice" (-5)

/-- C5: after `_set_cache(key, value, timeout)` at time `tset`, and with
no later set for that key, `_get_from_cache(key)` returns the value
strictly before `tset + timeout` and returns None (deleting the entry)
from the expiry on; setting a different key does not disturb the lookup,
and a key never set yields None. -/
theorem cache_spec (store : String → Option (CacheEntry α)) (key : String)
    (value : α) (timeout tset now : ℤ) (htimeout : 0 < timeout) :
    (now < tset + timeout →
      (get_from_cache (set_cache store key value timeout tset) key now).1
        = some value)
    ∧ (tset + timeout ≤ now →
        (get_from_cache (set_cache store key value timeout tset) key now).1
          = none
        ∧ (get_from_cache (set_cache store key value timeout tset) key
            now).2 key = none)
    ∧ (∀ (k2 : String) (v2 : α) (t2 ts2 : ℤ), k2 ≠ key →
        (get_from_cache (set_cache store k2 v2 t2 ts2) key now).1
          = (get_from_cache store key now).1)
    ∧ (get_from_cache (fun _ => none) key now).1 = (none : Option α) := by
  have hkey : (set_cache store key value timeout tset) key
      = some ⟨value, tset + timeout⟩ := Function.update_same key _ store
  refine ⟨?_, ?_, ?_, rfl⟩
  · intro hlt
    simp [get_from_cache, hkey, hlt]
  · intro hge
    constructor
    · simp [get_from_cache, hkey, not_lt.mpr hge]
    · simp [get_from_cache, hkey, not_lt.mpr hge, Function.update_same]
  · intro k2 v2 t2 ts2 hk2
    have hother : (set_cache store k2 v2 t2 ts2) key = store key :=
      Function.update_noteq (Ne.symm hk2) _ store
    simp only [get_from_cache, hother]
    match hsk : store key with
    | none => rfl
    | some entry =>
      by_cases hlt : now < entry.expires
      · simp [hlt]
      · simp [hlt]

/-- Witness for C5: value 7 cached at time 0 for 10 units is returned at
time 5 and gone (with its entry deleted) at time 10. -/
theorem cache_spec_witness :
    (get_from_cache (set_cache (fun _ => none) "reports" (7 : ℕ) 10 0)
      "reports" 5).1 = some 7
    ∧ (get_from_cache (set_cache (fun _ => none) "reports" (7 : ℕ) 10 0)
      "reports" 10).1 = none := by
  constructor
  · exact (cache_spec (fun _ => none) "reports" 7 10 0 5 (by decide)).1
      (by decide)
  · exact ((cache_spec (fun _ => none) "reports" 7 10 0 10 (by decide)).2.1
      (by decide)).1

/-- Witness for C9: paginating a three-item list two per page yields two
pages whose items reassemble the original list. -/
theorem paginate_query_spec_witness :
    ((List.range (paginate_query [10, 20, 30] (5 : ℤ) 2).pages).map
      (fun (i : ℕ) => (paginate_query [10, 20, 30] ((i : ℤ) + 1) 2).items)).flatten
      = [10, 20, 30] :=
  (paginate_query_spec [10, 20, 30] 5 2 (by decide)).2.2.2.2.2.2.2.2.2

end SCM
